import Mathlib

/-!
Shallow embedding of the cron scheduling core of the repository
(`src/scheduler/task_scheduler.py`): the `ExtendedCronTab` expression
parser and matcher, the `CronJob` polling loop body, and the
`TaskScheduler` job registry.  Machine integers are modelled as `Int`
(Python integers are unbounded); Python exceptions are modelled with
`Except`; Python `datetime` values are modelled by an explicit calendar
structure (`PyDateTime`) plus a microsecond component (`PyInstant`).
-/

/-- Gregorian leap-year test, as implemented by Python's `datetime` module
(the ambient standard library used by the source). -/
def isLeap (y : Nat) : Bool :=
  (y % 4 == 0 && y % 100 != 0) || y % 400 == 0

/-- Days in month `m` of year `y`, as in Python's `datetime` module; `0` for a
month outside `1..12` (such a month never occurs in a valid datetime). -/
def daysInMonth (y m : Nat) : Nat :=
  if m = 2 then (if isLeap y then 29 else 28)
  else if m = 4 ∨ m = 6 ∨ m = 9 ∨ m = 11 then 30
  else if 1 ≤ m ∧ m ≤ 12 then 31
  else 0

/-- The calendar components of a Python `datetime` value that the scheduler
reads (`second`, `minute`, `hour`, `day`, `month`, and `year`/`month`/`day`
from which `weekday()` is computed).  The microsecond component is kept
separately in `PyInstant`. -/
structure PyDateTime where
  year : Nat
  month : Nat
  day : Nat
  hour : Nat
  minute : Nat
  second : Nat
  deriving DecidableEq

/-- The invariant Python's `datetime` constructor enforces on its
components (year at least 1, month 1..12, day 1..days-in-month, and
in-range time-of-day fields). -/
def ValidDT (dt : PyDateTime) : Prop :=
  1 ≤ dt.year ∧ 1 ≤ dt.month ∧ dt.month ≤ 12 ∧
  1 ≤ dt.day ∧ dt.day ≤ daysInMonth dt.year dt.month ∧
  dt.hour ≤ 23 ∧ dt.minute ≤ 59 ∧ dt.second ≤ 59

instance (dt : PyDateTime) : Decidable (ValidDT dt) := by
  unfold ValidDT; infer_instance

/-- Days in all years strictly before year `y` (proleptic Gregorian),
as in Python's `datetime._days_before_year`. -/
def daysBeforeYear (y : Nat) : Nat :=
  365 * (y - 1) + (y - 1) / 4 - (y - 1) / 100 + (y - 1) / 400

/-- Days in year `y` strictly before month `m`. -/
def daysBeforeMonth (y m : Nat) : Nat :=
  ((List.range (m - 1)).map (fun i => daysInMonth y (i + 1))).sum

/-- Days since 0001-01-01 (Python's `date.toordinal()` minus one). -/
def toOrdinal (dt : PyDateTime) : Nat :=
  daysBeforeYear dt.year + daysBeforeMonth dt.year dt.month + (dt.day - 1)

/-- Python's `datetime.weekday()`: Monday is 0, Sunday is 6.  0001-01-01 was
a Monday, so with `toOrdinal` zero-based this is a plain remainder. -/
def pyWeekday (dt : PyDateTime) : Nat := toOrdinal dt % 7

/-- Seconds since 0001-01-01 00:00:00, the linearisation Python's
`datetime` subtraction (`timedelta`) is computed from. -/
def toSeconds (dt : PyDateTime) : Nat :=
  toOrdinal dt * 86400 + dt.hour * 3600 + dt.minute * 60 + dt.second

/-- A full Python `datetime` instant: calendar components plus the
microsecond component (`0 ≤ micro < 1000000` for real datetimes). -/
structure PyInstant where
  dt : PyDateTime
  micro : Nat
  deriving DecidableEq

/-- An instant in microseconds since the epoch; the difference of two
instants' `toMicros` values is exactly `(a - b).total_seconds()` scaled by
`10^6` in Python. -/
def toMicros (t : PyInstant) : Int :=
  (toSeconds t.dt : Int) * 1000000 + t.micro

/-- Python's `dt + timedelta(seconds=1)` on whole-second datetimes:
increment the second with calendar rollover. -/
def succSecond (dt : PyDateTime) : PyDateTime :=
  if dt.second < 59 then { dt with second := dt.second + 1 }
  else if dt.minute < 59 then { dt with second := 0, minute := dt.minute + 1 }
  else if dt.hour < 23 then { dt with second := 0, minute := 0, hour := dt.hour + 1 }
  else if dt.day < daysInMonth dt.year dt.month then
    { dt with second := 0, minute := 0, hour := 0, day := dt.day + 1 }
  else if dt.month < 12 then
    { dt with second := 0, minute := 0, hour := 0, day := 1, month := dt.month + 1 }
  else
    { dt with second := 0, minute := 0, hour := 0, day := 1, month := 1, year := dt.year + 1 }

/-- Python's `dt + timedelta(seconds=n)` on whole-second datetimes. -/
def addSeconds (n : Nat) (dt : PyDateTime) : PyDateTime :=
  succSecond^[n] dt

/-- Whitespace characters recognised by Python's no-argument `str.split()`. -/
def isPySpace (c : Char) : Bool :=
  c = ' ' || c = '\t' || c = '\n' || c = '\x0b' || c = '\x0c' || c = '\r'

/-- Splitting worker: cut a character list at every separator character,
keeping empty pieces (Python `str.split(sep)` semantics). -/
def splitSepAux (sep : Char) : List Char → List Char → List (List Char)
  | [], acc => [acc.reverse]
  | c :: rest, acc =>
    if c = sep then acc.reverse :: splitSepAux sep rest []
    else splitSepAux sep rest (c :: acc)

/-- Python `str.split(sep)` for a one-character separator, on the
character-list view of the string. -/
def splitSep (sep : Char) (cs : List Char) : List (List Char) :=
  splitSepAux sep cs []

/-- Splitting worker for whitespace splitting, keeping empty pieces. -/
def splitWsAux : List Char → List Char → List (List Char)
  | [], acc => [acc.reverse]
  | c :: rest, acc =>
    if isPySpace c then acc.reverse :: splitWsAux rest []
    else splitWsAux rest (c :: acc)

/-- Python's no-argument `str.split()`: split on runs of whitespace and
drop empty pieces.  Used for `cron_expression.split()`. -/
def pySplitWs (s : String) : List (List Char) :=
  (splitWsAux s.data []).filter (· ≠ [])

/-- Digit-string to number; `none` if empty or any character is not an
ASCII digit. -/
def digitsToNat : List Char → Option Nat
  | [] => none
  | cs => cs.foldl
      (fun acc c => acc.bind fun n =>
        if c.isDigit then some (10 * n + (c.toNat - '0'.toNat)) else none)
      (some 0)

/-- Python's `int(str)` on the strings the parser can feed it: an optional
single leading sign followed by ASCII digits.  (Python additionally strips
whitespace and allows underscore separators and non-ASCII digits; fields
produced by whitespace splitting contain no whitespace, and the omitted
forms denote the same values where accepted, so they do not affect the
properties proved here.)  `none` models `ValueError`. -/
def pyInt : List Char → Option Int
  | '-' :: rest => (digitsToNat rest).map (fun n => -(n : Int))
  | '+' :: rest => (digitsToNat rest).map (fun n => (n : Int))
  | cs => (digitsToNat cs).map (fun n => (n : Int))

/-- Length of Python's `range(a, b, step)` (0 when `step = 0`, where Python
instead raises; the parser checks for that case separately). -/
def pyRangeLen (a b step : Int) : Nat :=
  if 0 < step then (b - a + step - 1).toNat / step.toNat
  else if step < 0 then (a - b - step - 1).toNat / (-step).toNat
  else 0

/-- Worker for `pyRange`: the `n` values `a, a+step, a+2*step, ...`. -/
def pyRangeAux (a step : Int) : Nat → List Int
  | 0 => []
  | n + 1 => a :: pyRangeAux (a + step) step n

/-- Python's `range(a, b, step)` as a list: `a, a+step, ...`. -/
def pyRange (a b step : Int) : List Int :=
  pyRangeAux a step (pyRangeLen a b step)

/-- The comma-list loop of `_parse_field`: convert each piece with `int`,
check it against the field bound, and collect, failing on the first
violation (`ValueError` in the source). -/
def parseListVals : List (List Char) → Int → Int → Except String (List Int)
  | [], _, _ => .ok []
  | v :: rest, min_val, max_val =>
    match pyInt v with
    | none => .error "invalid literal for int()"
    | some num =>
      if min_val ≤ num ∧ num ≤ max_val then
        (parseListVals rest min_val max_val).map (fun l => num :: l)
      else .error "Value out of range in cron field"

/-- `ExtendedCronTab._parse_field`: parse one cron field (as a character
list, no whitespace) into the list of matching values.  Branch order is
the source's: `*`, step (`/` present), range (`-` present), comma list,
bare integer.  `.error` models a `ValueError` escaping the method. -/
def parse_field (field : List Char) (min_val max_val : Int) : Except String (List Int) :=
  if field = ['*'] then .ok (pyRange min_val (max_val + 1) 1)
  else if field.contains '/' then
    if (splitSep '/' field).headD [] = ['*'] then
      match pyInt ((splitSep '/' field).getD 1 []) with
      | none => .error "invalid literal for int()"
      | some step =>
        if step = 0 then .error "range() arg 3 must not be zero"
        else .ok (pyRange min_val (max_val + 1) step)
    else .error "Invalid cron field"
  else if field.contains '-' then
    match pyInt ((splitSep '-' field).getD 0 []), pyInt ((splitSep '-' field).getD 1 []) with
    | some start, some stop =>
      if start < min_val ∨ stop > max_val then
        .error "Values out of range in cron field"
      else .ok (pyRange start (stop + 1) 1)
    | _, _ => .error "invalid literal for int()"
  else if field.contains ',' then
    parseListVals (splitSep ',' field) min_val max_val
  else
    match pyInt field with
    | none => .error "invalid literal for int()"
    | some num =>
      if min_val ≤ num ∧ num ≤ max_val then .ok [num]
      else .error "Value out of range in cron field"

/-- The parsed schedule held by an `ExtendedCronTab` instance: the six
value lists produced by `_parse_expression` plus the `has_seconds` flag. -/
structure ExtendedCronTab where
  seconds : List Int
  minutes : List Int
  hours : List Int
  days : List Int
  months : List Int
  weekdays : List Int
  has_seconds : Bool
  deriving DecidableEq

/-- `ExtendedCronTab.__init__` + `_parse_expression`: split the expression
on whitespace, require 5 or 6 fields, parse the optional seconds field and
the five standard fields against their bounds.  `.error` models the
`ValueError` the constructor raises. -/
def parse_expression (cron_expression : String) : Except String ExtendedCronTab :=
  let fields := pySplitWs cron_expression
  if ¬ (5 ≤ fields.length ∧ fields.length ≤ 6) then
    .error "Invalid cron expression. Must have 5 or 6 fields."
  else
    let has_seconds := fields.length == 6
    do
      let seconds ← if has_seconds then parse_field (fields.headD []) 0 59 else pure [0]
      let rest := if has_seconds then fields.tail else fields
      let minutes ← parse_field (rest.getD 0 []) 0 59
      let hours ← parse_field (rest.getD 1 []) 0 23
      let days ← parse_field (rest.getD 2 []) 1 31
      let months ← parse_field (rest.getD 3 []) 1 12
      let weekdays ← parse_field (rest.getD 4 []) 0 6
      pure ⟨seconds, minutes, hours, days, months, weekdays, has_seconds⟩

/-- `ExtendedCronTab.is_time_to_run`: the instant's second, minute, hour,
day-of-month, month and weekday must each belong to the corresponding
parsed list. -/
def is_time_to_run (tab : ExtendedCronTab) (dt : PyDateTime) : Bool :=
  decide ((dt.second : Int) ∈ tab.seconds) &&
  decide ((dt.minute : Int) ∈ tab.minutes) &&
  decide ((dt.hour : Int) ∈ tab.hours) &&
  decide ((dt.day : Int) ∈ tab.days) &&
  decide ((dt.month : Int) ∈ tab.months) &&
  decide ((pyWeekday dt : Int) ∈ tab.weekdays)

/-- The scan loop of `ExtendedCronTab.next`: `fuel` iterations remain,
`check_time` is the instant being examined, and `acc` is
`(check_time - from_time).total_seconds()` (an exact whole number here);
returns `24*60*60` when the fuel (24-hour horizon) is exhausted. -/
def nextAux (tab : ExtendedCronTab) : Nat → PyDateTime → Nat → Nat
  | 0, _, _ => 24 * 60 * 60
  | fuel + 1, check_time, acc =>
    if is_time_to_run tab check_time then acc
    else nextAux tab fuel (succSecond check_time) (acc + 1)

/-- `ExtendedCronTab.next`: seconds until the next matching instant,
scanning second-by-second from `from_time + 1s` over a 24-hour horizon,
with `24*60*60` as fallback. -/
def cron_next (tab : ExtendedCronTab) (from_time : PyDateTime) : Nat :=
  nextAux tab (24 * 60 * 60) (succSecond from_time) 1

/-- A `CronJob` as constructed by `CronJob.__init__`: the stored fields
(the opaque callback is not part of the state the claims speak about). -/
structure CronJob where
  name : String
  cron_expression : String
  timezone : String
  crontab : ExtendedCronTab
  running : Bool
  last_run : Option PyInstant
  deriving DecidableEq

/-- `CronJob.__init__`: store the arguments and build the crontab from the
expression alone; `running = False`, `last_run = None`.  `.error` models
the `ValueError` the `ExtendedCronTab` constructor raises. -/
def mkCronJob (name cron_expression timezone : String) : Except String CronJob :=
  (parse_expression cron_expression).map fun tab =>
    { name := name, cron_expression := cron_expression, timezone := timezone,
      crontab := tab, running := false, last_run := none }

/-- The per-iteration state of `CronJob._schedule_loop` that the firing
decision reads and writes. -/
structure JobLoopState where
  last_run : Option PyInstant
  deriving DecidableEq

/-- One iteration of the firing decision in `CronJob._schedule_loop`:
with the sampled current instant `now`, fire iff `is_time_to_run` holds
and (`last_run` is `None` or `(now - last_run).total_seconds() >= 1`);
on firing, `last_run` is set to `now` (before the callback is awaited).
Returns (callback invoked?, updated state). -/
def schedule_tick (tab : ExtendedCronTab) (s : JobLoopState) (now : PyInstant) :
    Bool × JobLoopState :=
  if is_time_to_run tab now.dt then
    match s.last_run with
    | none => (true, ⟨some now⟩)
    | some lr =>
      if 1000000 ≤ toMicros now - toMicros lr then (true, ⟨some now⟩)
      else (false, s)
  else (false, s)

/-- The `TaskScheduler` state: the `jobs` dict (an insertion-ordered
association list with unique names) and the `running` flag. -/
structure TaskScheduler where
  jobs : List (String × CronJob)
  running : Bool
  deriving DecidableEq

/-- `TaskScheduler.register_job`.  A present name returns immediately;
otherwise the job is built (parsing the expression), stored, and started
when the scheduler is running.  The `try/except` around job creation
catches every exception and only logs it, so the embedding never returns
`.error`: an `.error` result would model an exception escaping to the
caller, which the source's `except` clause prevents. -/
def register_job (st : TaskScheduler) (name cron_expression timezone : String) :
    Except String TaskScheduler :=
  if st.jobs.any (fun p => p.1 == name) then .ok st
  else
    match mkCronJob name cron_expression timezone with
    | .error _ => .ok st
    | .ok job =>
      let job := if st.running then { job with running := true } else job
      .ok { st with jobs := st.jobs ++ [(name, job)] }


/-- The schedule parsed from the 5-field expression "* * 31 4 *"
(day-of-month 31, month 4/April, everything else full range). -/
def tab314 : ExtendedCronTab :=
  ⟨[0], pyRange 0 60 1, pyRange 0 24 1, [31], [4], pyRange 0 7 1, false⟩

/-- The schedule parsed from the 5-field expression whose minutes field is
the step form with N = -1 (star, slash, minus one) and whose other fields
are all stars: accepted by the parser, with an empty minutes list, since
Python `range(0, 60, -1)` is empty. -/
def tabNegStep : ExtendedCronTab :=
  ⟨[0], [], pyRange 0 24 1, pyRange 1 32 1, pyRange 1 13 1, pyRange 0 7 1, false⟩

/-- The schedule parsed from the 6-field expression "*/5 * * * * *". -/
def tabStep5 : ExtendedCronTab :=
  ⟨pyRange 0 60 5, pyRange 0 60 1, pyRange 0 24 1, pyRange 1 32 1, pyRange 1 13 1,
   pyRange 0 7 1, true⟩

/-- The schedule parsed from "0 0 1 1 0" (midnight on January 1st falling
on the weekday-0 reference day). -/
def demoTab : ExtendedCronTab := ⟨[0], [0], [0], [1], [1], [0], false⟩

/-- A scheduler state holding one registered job named "ping". -/
def demoScheduler : TaskScheduler :=
  ⟨[("ping", ⟨"ping", "0 0 1 1 0", "UTC", demoTab, false, none⟩)], false⟩

/-- The job built by `mkCronJob "ping" "0 0 1 1 0" "UTC"`. -/
def demoJobUTC : CronJob := ⟨"ping", "0 0 1 1 0", "UTC", demoTab, false, none⟩

/-- The job built by `mkCronJob "ping" "0 0 1 1 0" "EST"`. -/
def demoJobEST : CronJob := ⟨"ping", "0 0 1 1 0", "EST", demoTab, false, none⟩

/-- 2024-01-01 00:00:00.000000 (a Monday, due for `demoTab`). -/
def demoInstant1 : PyInstant := ⟨⟨2024, 1, 1, 0, 0, 0⟩, 0⟩

/-- 2024-01-01 00:00:00.500000, one 0.5 s poll tick after `demoInstant1`
within the same due second. -/
def demoInstant2 : PyInstant := ⟨⟨2024, 1, 1, 0, 0, 0⟩, 500000⟩

theorem pyRangeLen_one (a b : Int) : pyRangeLen a b 1 = (b - a).toNat := by
  simp [pyRangeLen]

theorem mem_pyRangeAux {step x : Int} :
    ∀ (n : Nat) (a : Int), x ∈ pyRangeAux a step n ↔ ∃ i : Nat, i < n ∧ x = a + step * i := by
  intro n
  induction n with
  | zero => simp [pyRangeAux]
  | succ m ih =>
    intro a
    simp only [pyRangeAux, List.mem_cons, ih]
    constructor
    · rintro (rfl | ⟨i, hi, rfl⟩)
      · exact ⟨0, by omega, by ring⟩
      · exact ⟨i + 1, by omega, by push_cast; ring⟩
    · rintro ⟨i, hi, rfl⟩
      cases i with
      | zero => left; simp
      | succ j => right; exact ⟨j, by omega, by push_cast; ring⟩

theorem mem_pyRange_iff {a b step x : Int} :
    x ∈ pyRange a b step ↔ ∃ i : Nat, i < pyRangeLen a b step ∧ x = a + step * i := by
  unfold pyRange
  exact mem_pyRangeAux _ _

theorem mem_pyRange_one {a b x : Int} : x ∈ pyRange a b 1 ↔ a ≤ x ∧ x < b := by
  rw [mem_pyRange_iff, pyRangeLen_one]
  constructor
  · rintro ⟨i, hi, rfl⟩
    omega
  · intro h
    exact ⟨(x - a).toNat, by omega, by omega⟩

theorem mem_pyRange_pos {a b step x : Int} (hs : 0 < step)
    (hx : x ∈ pyRange a b step) : a ≤ x ∧ x < b := by
  rw [mem_pyRange_iff] at hx
  obtain ⟨i, hi, rfl⟩ := hx
  have hlen : pyRangeLen a b step = (b - a + step - 1).toNat / step.toNat := by
    simp [pyRangeLen, hs]
  rw [hlen] at hi
  have h4 : (i + 1) * step.toNat ≤ (b - a + step - 1).toNat :=
    le_trans (Nat.mul_le_mul_right _ hi) (Nat.div_mul_le_self _ _)
  have hcast : (step.toNat : Int) = step := Int.toNat_of_nonneg hs.le
  have hnonneg : (0:Int) ≤ step * i := by positivity
  refine ⟨by linarith, ?_⟩
  rcases le_or_lt 0 (b - a + step - 1) with hpos | hneg
  · have h5 : (((i + 1) * step.toNat : Nat) : Int) ≤ ((b - a + step - 1).toNat : Int) := by
      exact_mod_cast h4
    rw [Int.toNat_of_nonneg hpos] at h5
    push_cast [hcast] at h5
    nlinarith
  · have hz : (b - a + step - 1).toNat = 0 := by omega
    rw [hz, Nat.le_zero, Nat.mul_eq_zero] at h4
    have : step.toNat = 0 := by omega
    omega

theorem pyRange_neg_empty {a b step : Int} (hs : step < 0) (hab : a < b) :
    pyRange a b step = [] := by
  have hlen : pyRangeLen a b step = 0 := by
    simp only [pyRangeLen, if_neg (by omega : ¬ (0:Int) < step), if_pos hs]
    have h2 : (a - b - step - 1).toNat < (-step).toNat := by omega
    exact Nat.div_eq_of_lt h2
  rw [pyRange, hlen]
  rfl

theorem parseListVals_mem :
    ∀ (parts : List (List Char)) (lo hi : Int) (l : List Int),
      parseListVals parts lo hi = .ok l → ∀ x ∈ l, lo ≤ x ∧ x ≤ hi := by
  intro parts
  induction parts with
  | nil =>
    intro lo hi l h x hx
    simp only [parseListVals, Except.ok.injEq] at h
    subst h
    cases hx
  | cons v rest ih =>
    intro lo hi l h x hx
    simp only [parseListVals] at h
    cases hpi : pyInt v with
    | none => rw [hpi] at h; cases h
    | some num =>
      rw [hpi] at h
      dsimp only at h
      by_cases hb : lo ≤ num ∧ num ≤ hi
      · rw [if_pos hb] at h
        cases hrec : parseListVals rest lo hi with
        | error e => rw [hrec] at h; cases h
        | ok l2 =>
          rw [hrec] at h
          simp only [Except.map, Except.ok.injEq] at h
          subst h
          rcases List.mem_cons.mp hx with rfl | hx2
          · exact hb
          · exact ih lo hi l2 hrec x hx2
      · rw [if_neg hb] at h; cases h

theorem parse_field_mem {f : List Char} {lo hi : Int} {l : List Int} (hlohi : lo < hi)
    (h : parse_field f lo hi = .ok l) : ∀ x ∈ l, lo ≤ x ∧ x ≤ hi := by
  unfold parse_field at h
  by_cases h1 : f = ['*']
  · rw [if_pos h1] at h
    simp only [Except.ok.injEq] at h
    subst h
    intro x hx
    have := mem_pyRange_one.mp hx
    omega
  · rw [if_neg h1] at h
    by_cases h2 : f.contains '/'
    · rw [if_pos h2] at h
      by_cases h3 : (splitSep '/' f).headD [] = ['*']
      · rw [if_pos h3] at h
        cases hpi : pyInt ((splitSep '/' f).getD 1 []) with
        | none => rw [hpi] at h; cases h
        | some step =>
          rw [hpi] at h
          dsimp only at h
          by_cases h4 : step = 0
          · rw [if_pos h4] at h; cases h
          · rw [if_neg h4] at h
            simp only [Except.ok.injEq] at h
            subst h
            intro x hx
            rcases lt_trichotomy step 0 with hneg | hz | hpos
            · rw [pyRange_neg_empty hneg (by omega)] at hx
              cases hx
            · exact absurd hz h4
            · have := mem_pyRange_pos hpos hx
              omega
      · rw [if_neg h3] at h; cases h
    · rw [if_neg h2] at h
      by_cases h5 : f.contains '-'
      · rw [if_pos h5] at h
        cases hp0 : pyInt ((splitSep '-' f).getD 0 []) with
        | none =>
          cases hp1 : pyInt ((splitSep '-' f).getD 1 []) <;>
            rw [hp0, hp1] at h <;> cases h
        | some start =>
          cases hp1 : pyInt ((splitSep '-' f).getD 1 []) with
          | none => rw [hp0, hp1] at h; cases h
          | some stop =>
            rw [hp0, hp1] at h
            dsimp only at h
            by_cases h6 : start < lo ∨ stop > hi
            · rw [if_pos h6] at h; cases h
            · rw [if_neg h6] at h
              simp only [Except.ok.injEq] at h
              subst h
              intro x hx
              have := mem_pyRange_one.mp hx
              omega
      · rw [if_neg h5] at h
        by_cases h7 : f.contains ','
        · rw [if_pos h7] at h
          exact parseListVals_mem _ _ _ _ h
        · rw [if_neg h7] at h
          cases hpi : pyInt f with
          | none => rw [hpi] at h; cases h
          | some num =>
            rw [hpi] at h
            dsimp only at h
            by_cases h8 : lo ≤ num ∧ num ≤ hi
            · rw [if_pos h8] at h
              simp only [Except.ok.injEq] at h
              subst h
              intro x hx
              rw [List.mem_singleton] at hx
              subst hx
              exact h8
            · rw [if_neg h8] at h; cases h

theorem except_bind_ok {α β : Type} (a : α) (f : α → Except String β) :
    (Except.ok a : Except String α) >>= f = f a := rfl

theorem except_bind_error {α β : Type} (msg : String) (f : α → Except String β) :
    (Except.error msg : Except String α) >>= f = Except.error msg := rfl

theorem except_pure {α : Type} (a : α) : (pure a : Except String α) = Except.ok a := rfl

/-- The `fields_without_seconds` list computed by `_parse_expression`:
the split fields with the seconds field (if present) removed. -/
def fields_without_seconds (e : String) : List (List Char) :=
  if (pySplitWs e).length == 6 then (pySplitWs e).tail else pySplitWs e

theorem parse_expression_ok_inv {e : String} {tab : ExtendedCronTab}
    (h : parse_expression e = .ok tab) :
    (5 ≤ (pySplitWs e).length ∧ (pySplitWs e).length ≤ 6) ∧
    tab.has_seconds = ((pySplitWs e).length == 6) ∧
    (tab.has_seconds = true →
      parse_field ((pySplitWs e).headD []) 0 59 = .ok tab.seconds) ∧
    (tab.has_seconds = false → tab.seconds = [0]) ∧
    parse_field ((fields_without_seconds e).getD 0 []) 0 59 = .ok tab.minutes ∧
    parse_field ((fields_without_seconds e).getD 1 []) 0 23 = .ok tab.hours ∧
    parse_field ((fields_without_seconds e).getD 2 []) 1 31 = .ok tab.days ∧
    parse_field ((fields_without_seconds e).getD 3 []) 1 12 = .ok tab.months ∧
    parse_field ((fields_without_seconds e).getD 4 []) 0 6 = .ok tab.weekdays := by
  unfold parse_expression at h
  dsimp only at h
  by_cases hlen : 5 ≤ (pySplitWs e).length ∧ (pySplitWs e).length ≤ 6
  · rw [if_neg (not_not_intro hlen)] at h
    by_cases hsec : (pySplitWs e).length = 6
    · have hb : ((pySplitWs e).length == 6) = true := beq_iff_eq.mpr hsec
      have hrest : fields_without_seconds e = (pySplitWs e).tail := by
        unfold fields_without_seconds
        rw [hb, if_pos rfl]
      rw [hb, if_pos rfl] at h
      cases hs0 : parse_field ((pySplitWs e).headD []) 0 59 with
      | error e0 => rw [hs0, except_bind_error] at h; cases h
      | ok s0 =>
        rw [hs0, except_bind_ok] at h
        rw [if_pos rfl] at h
        cases hs1 : parse_field ((pySplitWs e).tail.getD 0 []) 0 59 with
        | error e1 => rw [hs1, except_bind_error] at h; cases h
        | ok s1 =>
          rw [hs1, except_bind_ok] at h
          cases hs2 : parse_field ((pySplitWs e).tail.getD 1 []) 0 23 with
          | error e2 => rw [hs2, except_bind_error] at h; cases h
          | ok s2 =>
            rw [hs2, except_bind_ok] at h
            cases hs3 : parse_field ((pySplitWs e).tail.getD 2 []) 1 31 with
            | error e3 => rw [hs3, except_bind_error] at h; cases h
            | ok s3 =>
              rw [hs3, except_bind_ok] at h
              cases hs4 : parse_field ((pySplitWs e).tail.getD 3 []) 1 12 with
              | error e4 => rw [hs4, except_bind_error] at h; cases h
              | ok s4 =>
                rw [hs4, except_bind_ok] at h
                cases hs5 : parse_field ((pySplitWs e).tail.getD 4 []) 0 6 with
                | error e5 => rw [hs5, except_bind_error] at h; cases h
                | ok s5 =>
                  rw [hs5, except_bind_ok, except_pure] at h
                  cases h
                  refine ⟨hlen, hb.symm, fun _ => rfl, ?_, ?_, ?_, ?_, ?_, ?_⟩
                  · intro hc; cases hc
                  · rw [hrest]; exact hs1
                  · rw [hrest]; exact hs2
                  · rw [hrest]; exact hs3
                  · rw [hrest]; exact hs4
                  · rw [hrest]; exact hs5
    · have hb : ((pySplitWs e).length == 6) = false := by
        simp [hsec]
      have hrest : fields_without_seconds e = pySplitWs e := by
        unfold fields_without_seconds
        rw [hb, if_neg Bool.false_ne_true]
      rw [hb, if_neg Bool.false_ne_true, except_pure, except_bind_ok] at h
      rw [if_neg Bool.false_ne_true] at h
      cases hs1 : parse_field ((pySplitWs e).getD 0 []) 0 59 with
      | error e1 => rw [hs1, except_bind_error] at h; cases h
      | ok s1 =>
        rw [hs1, except_bind_ok] at h
        cases hs2 : parse_field ((pySplitWs e).getD 1 []) 0 23 with
        | error e2 => rw [hs2, except_bind_error] at h; cases h
        | ok s2 =>
          rw [hs2, except_bind_ok] at h
          cases hs3 : parse_field ((pySplitWs e).getD 2 []) 1 31 with
          | error e3 => rw [hs3, except_bind_error] at h; cases h
          | ok s3 =>
            rw [hs3, except_bind_ok] at h
            cases hs4 : parse_field ((pySplitWs e).getD 3 []) 1 12 with
            | error e4 => rw [hs4, except_bind_error] at h; cases h
            | ok s4 =>
              rw [hs4, except_bind_ok] at h
              cases hs5 : parse_field ((pySplitWs e).getD 4 []) 0 6 with
              | error e5 => rw [hs5, except_bind_error] at h; cases h
              | ok s5 =>
                rw [hs5, except_bind_ok, except_pure] at h
                cases h
                refine ⟨hlen, hb.symm, ?_, fun _ => rfl, ?_, ?_, ?_, ?_, ?_⟩
                · intro hc; cases hc
                · rw [hrest]; exact hs1
                · rw [hrest]; exact hs2
                · rw [hrest]; exact hs3
                · rw [hrest]; exact hs4
                · rw [hrest]; exact hs5
  · rw [if_pos hlen] at h
    cases h

theorem daysInMonth_le_31 (y m : Nat) : daysInMonth y m ≤ 31 := by
  unfold daysInMonth
  split_ifs <;> omega

theorem one_le_daysInMonth {y m : Nat} (h1 : 1 ≤ m) (h2 : m ≤ 12) :
    1 ≤ daysInMonth y m := by
  unfold daysInMonth
  split_ifs <;> omega

theorem daysInMonth_april (y : Nat) : daysInMonth y 4 = 30 := rfl

theorem succSecond_valid {dt : PyDateTime} (h : ValidDT dt) :
    ValidDT (succSecond dt) := by
  obtain ⟨hy, hm1, hm2, hd1, hd2, hh, hmin, hs⟩ := h
  unfold succSecond
  split_ifs with c1 c2 c3 c4 c5 <;>
    refine ⟨?_, ?_, ?_, ?_, ?_, ?_, ?_, ?_⟩ <;>
    dsimp only <;>
    first
      | omega
      | exact one_le_daysInMonth (by omega) (by omega)

theorem addSeconds_valid {dt : PyDateTime} (n : Nat) (h : ValidDT dt) :
    ValidDT (addSeconds n dt) := by
  induction n with
  | zero => exact h
  | succ m ih =>
    have : addSeconds (m + 1) dt = succSecond (addSeconds m dt) :=
      Function.iterate_succ_apply' succSecond m dt
    rw [this]
    exact succSecond_valid ih

theorem addSeconds_succ (n : Nat) (dt : PyDateTime) :
    addSeconds (n + 1) dt = addSeconds n (succSecond dt) :=
  Function.iterate_succ_apply succSecond n dt

theorem addSeconds_one (dt : PyDateTime) : addSeconds 1 dt = succSecond dt := by
  rw [addSeconds_succ]
  rfl

theorem nextAux_pos (tab : ExtendedCronTab) :
    ∀ (fuel : Nat) (ct : PyDateTime) (acc : Nat), 0 < acc → 0 < nextAux tab fuel ct acc := by
  intro fuel
  induction fuel with
  | zero =>
    intro ct acc h
    unfold nextAux
    norm_num
  | succ m ih =>
    intro ct acc h
    unfold nextAux
    split
    · exact h
    · exact ih _ _ (by omega)

theorem nextAux_post (tab : ExtendedCronTab) (t : PyDateTime) :
    ∀ (fuel acc : Nat),
      is_time_to_run tab (addSeconds (nextAux tab fuel (addSeconds acc t) acc) t) = true ∨
      nextAux tab fuel (addSeconds acc t) acc = 24 * 60 * 60 := by
  intro fuel
  induction fuel with
  | zero =>
    intro acc
    right
    rfl
  | succ m ih =>
    intro acc
    unfold nextAux
    split
    · next hdue => left; exact hdue
    · next hndue =>
      have hstep : succSecond (addSeconds acc t) = addSeconds (acc + 1) t :=
        (Function.iterate_succ_apply' succSecond acc t).symm
      rw [hstep]
      exact ih (acc + 1)

theorem is_time_to_run_iff (tab : ExtendedCronTab) (dt : PyDateTime) :
    is_time_to_run tab dt = true ↔
      ((dt.second : Int) ∈ tab.seconds ∧ (dt.minute : Int) ∈ tab.minutes ∧
       (dt.hour : Int) ∈ tab.hours ∧ (dt.day : Int) ∈ tab.days ∧
       (dt.month : Int) ∈ tab.months ∧ (pyWeekday dt : Int) ∈ tab.weekdays) := by
  unfold is_time_to_run
  simp [Bool.and_eq_true, decide_eq_true_iff, and_assoc]

theorem mem_step5_iff (s : Nat) (hs : s ≤ 59) :
    ((s : Int) ∈ pyRange 0 60 5 ↔ s % 5 = 0) := by
  rw [mem_pyRange_iff]
  have hlen : pyRangeLen 0 60 5 = 12 := by decide
  rw [hlen]
  constructor
  · rintro ⟨i, hi, heq⟩
    omega
  · intro h
    exact ⟨s / 5, by omega, by omega⟩

theorem pyWeekday_lt_7 (dt : PyDateTime) : pyWeekday dt < 7 :=
  Nat.mod_lt _ (by norm_num)

theorem parse_tab314 : parse_expression "* * 31 4 *" = .ok tab314 := by rfl

theorem tab314_never_due {dt : PyDateTime} (h : ValidDT dt) :
    is_time_to_run tab314 dt = false := by
  rw [Bool.eq_false_iff]
  intro hdue
  rw [is_time_to_run_iff] at hdue
  obtain ⟨-, -, -, hday, hmon, -⟩ := hdue
  have hd : (dt.day : Int) = 31 := by simpa [tab314] using hday
  have hm : (dt.month : Int) = 4 := by simpa [tab314] using hmon
  obtain ⟨-, -, -, -, hd2, -, -, -⟩ := h
  have hm4 : dt.month = 4 := by exact_mod_cast hm
  rw [hm4, daysInMonth_april] at hd2
  have hd31 : dt.day = 31 := by exact_mod_cast hd
  omega

/-- C6: the expression "* * 31 4 *" (day-of-month 31, month 4) is accepted
by the parser, yet `is_time_to_run` returns false for every valid calendar
instant: April has only 30 days, so the conjunction of the day and month
membership tests can never hold. -/
theorem c6_day31_april_never_due :
    parse_expression "* * 31 4 *" = .ok tab314 ∧
    ∀ dt : PyDateTime, ValidDT dt → is_time_to_run tab314 dt = false :=
  ⟨parse_tab314, fun _ h => tab314_never_due h⟩

theorem c6_day31_april_never_due_witness :
    ValidDT ⟨2023, 4, 30, 12, 0, 0⟩ ∧
    is_time_to_run tab314 ⟨2023, 4, 30, 12, 0, 0⟩ = false :=
  ⟨by decide, c6_day31_april_never_due.2 ⟨2023, 4, 30, 12, 0, 0⟩ (by decide)⟩

/-- C3 (amended): for every parsed schedule and instant, `next` returns a
strictly positive duration, and either the instant at that offset is due,
or the returned duration is exactly the 24-hour fallback `24*60*60` (the
original claim that the instant at the returned offset is always due fails
on schedules with no due instant inside the horizon, see the
counterexample). -/
theorem c3_next_positive_and_due_or_fallback (tab : ExtendedCronTab) (t : PyDateTime) :
    0 < cron_next tab t ∧
    (is_time_to_run tab (addSeconds (cron_next tab t) t) = true ∨
      cron_next tab t = 24 * 60 * 60) := by
  constructor
  · exact nextAux_pos tab _ _ _ (by omega)
  · have h1 : succSecond t = addSeconds 1 t := (addSeconds_one t).symm
    unfold cron_next
    rw [h1]
    exact nextAux_post tab t (24 * 60 * 60) 1

/-- C3 counterexample: for the parsed schedule of "* * 31 4 *" and the
instant 2023-01-01 00:00:00, `IsDue` at `T + TimeUntilNext(T)` is false
(the scan finds nothing within 24 hours and returns the fallback), so
the claim as stated fails. -/
theorem c3_counterexample :
    ¬ (0 < cron_next tab314 ⟨2023, 1, 1, 0, 0, 0⟩ ∧
       is_time_to_run tab314
         (addSeconds (cron_next tab314 ⟨2023, 1, 1, 0, 0, 0⟩) ⟨2023, 1, 1, 0, 0, 0⟩) = true) := by
  rintro ⟨-, hdue⟩
  have hvalid : ValidDT (addSeconds (cron_next tab314 ⟨2023, 1, 1, 0, 0, 0⟩)
      ⟨2023, 1, 1, 0, 0, 0⟩) :=
    addSeconds_valid _ (by decide)
  rw [tab314_never_due hvalid] at hdue
  cases hdue

/-- C2 (amended): every expression the parser accepts yields six field
lists all of whose members lie within the field's declared bound, and the
5-field form (no explicit seconds) yields `seconds = [0]`; the
non-emptiness part of the original claim is false (see the
counterexample): a step form with negative N, or a descending range, is
accepted and yields an empty field list. -/
theorem c2_accepted_fields_in_bounds {e : String} {tab : ExtendedCronTab}
    (h : parse_expression e = .ok tab) :
    (∀ x ∈ tab.seconds, 0 ≤ x ∧ x ≤ 59) ∧
    (∀ x ∈ tab.minutes, 0 ≤ x ∧ x ≤ 59) ∧
    (∀ x ∈ tab.hours, 0 ≤ x ∧ x ≤ 23) ∧
    (∀ x ∈ tab.days, 1 ≤ x ∧ x ≤ 31) ∧
    (∀ x ∈ tab.months, 1 ≤ x ∧ x ≤ 12) ∧
    (∀ x ∈ tab.weekdays, 0 ≤ x ∧ x ≤ 6) ∧
    (tab.has_seconds = false → tab.seconds = [0]) := by
  obtain ⟨hlen, hsec, hsecok, hsecdef, hmin, hhour, hday, hmon, hwd⟩ :=
    parse_expression_ok_inv h
  refine ⟨?_, parse_field_mem (by norm_num) hmin, parse_field_mem (by norm_num) hhour,
    parse_field_mem (by norm_num) hday, parse_field_mem (by norm_num) hmon,
    parse_field_mem (by norm_num) hwd, hsecdef⟩
  cases hb : tab.has_seconds with
  | false =>
    intro x hx
    rw [hsecdef hb, List.mem_singleton] at hx
    subst hx
    omega
  | true => exact parse_field_mem (by norm_num) (hsecok hb)

/-- C2 counterexample: the 5-field expression whose minutes field is the
step form with N = -1 (and all other fields stars) is accepted by the
parser, yet its minutes list is empty — refuting the invariant that every
field set of an accepted expression is non-empty. -/
theorem c2_counterexample :
    parse_expression "*/-1 * * * *" = .ok tabNegStep ∧ tabNegStep.minutes = [] :=
  ⟨by rfl, rfl⟩

theorem mem_pyRange_pos_iff {lo hi step x : Int} (hs : 0 < step) (hlohi : lo ≤ hi) :
    x ∈ pyRange lo (hi + 1) step ↔ ∃ i : Nat, x = lo + step * i ∧ x ≤ hi := by
  constructor
  · intro hx
    have hb := mem_pyRange_pos hs hx
    rw [mem_pyRange_iff] at hx
    obtain ⟨i, hi2, rfl⟩ := hx
    exact ⟨i, rfl, by omega⟩
  · rintro ⟨i, rfl, hle⟩
    rw [mem_pyRange_iff]
    refine ⟨i, ?_, rfl⟩
    have hlen : pyRangeLen lo (hi + 1) step = (hi + 1 - lo + step - 1).toNat / step.toNat := by
      simp [pyRangeLen, hs]
    rw [hlen]
    have hs2 : 0 < step.toNat := by omega
    have h3 : (0:Int) ≤ hi + 1 - lo + step - 1 := by omega
    rw [Nat.lt_iff_add_one_le, Nat.le_div_iff_mul_le hs2, Int.le_toNat h3]
    have hcast : (step.toNat : Int) = step := Int.toNat_of_nonneg hs.le
    push_cast [hcast]
    nlinarith [hle]

/-- C7: a step field (star, slash, N) with positive N parses to exactly
the values min, min+N, min+2N, ... up to the field maximum inclusive; in
particular "*/5 * * * * *" yields every 5th second from 0 to 55 (12
values), and for every valid instant that schedule is due exactly when the
instant's second is a multiple of 5. -/
theorem c7_step_seconds :
    (∀ (f : List Char) (lo hi step : Int), f ≠ ['*'] → f.contains '/' = true →
      (splitSep '/' f).headD [] = ['*'] →
      pyInt ((splitSep '/' f).getD 1 []) = some step → step ≠ 0 →
      parse_field f lo hi = .ok (pyRange lo (hi + 1) step)) ∧
    (∀ (lo hi step x : Int), 0 < step → lo ≤ hi →
      (x ∈ pyRange lo (hi + 1) step ↔ ∃ i : Nat, x = lo + step * i ∧ x ≤ hi)) ∧
    parse_expression "*/5 * * * * *" = .ok tabStep5 ∧
    tabStep5.seconds = [0, 5, 10, 15, 20, 25, 30, 35, 40, 45, 50, 55] ∧
    tabStep5.seconds.length = 12 ∧
    (∀ dt : PyDateTime, ValidDT dt →
      (is_time_to_run tabStep5 dt = true ↔ dt.second % 5 = 0)) := by
  refine ⟨?_, ?_, by rfl, by rfl, by rfl, ?_⟩
  · intro f lo hi step hne hsl hhead hpy hstep0
    unfold parse_field
    rw [if_neg hne, if_pos hsl, if_pos hhead, hpy]
    dsimp only
    rw [if_neg hstep0]
  · intro lo hi step x hs hlohi
    exact mem_pyRange_pos_iff hs hlohi
  intro dt hv
  obtain ⟨hy, hm1, hm2, hd1, hd2, hh, hmin, hs⟩ := hv
  have hd31 : dt.day ≤ 31 := le_trans hd2 (daysInMonth_le_31 _ _)
  rw [is_time_to_run_iff]
  constructor
  · rintro ⟨h1, -, -, -, -, -⟩
    exact (mem_step5_iff dt.second hs).mp h1
  · intro h5
    refine ⟨(mem_step5_iff dt.second hs).mpr h5, ?_, ?_, ?_, ?_, ?_⟩
    · show (dt.minute : Int) ∈ pyRange 0 60 1
      rw [mem_pyRange_one]
      omega
    · show (dt.hour : Int) ∈ pyRange 0 24 1
      rw [mem_pyRange_one]
      omega
    · show (dt.day : Int) ∈ pyRange 1 32 1
      rw [mem_pyRange_one]
      omega
    · show (dt.month : Int) ∈ pyRange 1 13 1
      rw [mem_pyRange_one]
      omega
    · show (pyWeekday dt : Int) ∈ pyRange 0 7 1
      rw [mem_pyRange_one]
      have := pyWeekday_lt_7 dt
      omega

theorem c7_step_seconds_witness :
    ValidDT ⟨2024, 2, 29, 12, 30, 10⟩ ∧
    (is_time_to_run tabStep5 ⟨2024, 2, 29, 12, 30, 10⟩ = true ↔ 10 % 5 = 0) :=
  ⟨by decide, c7_step_seconds.2.2.2.2.2 ⟨2024, 2, 29, 12, 30, 10⟩ (by decide)⟩

theorem c2_accepted_fields_in_bounds_witness :
    tab314.seconds = [0] :=
  (c2_accepted_fields_in_bounds
    (by rfl : parse_expression "* * 31 4 *" = Except.ok tab314)).2.2.2.2.2.2 rfl

/-- C1 (amended): when parsing the cron expression fails, `register_job`
catches the exception inside its try/except, reports it only through the
logger, returns normally, and leaves the scheduler state unchanged — in
particular no job is added; no error reaches the caller. -/
theorem c1_register_parse_error_swallowed (st : TaskScheduler)
    (name expr tz : String) (msg : String)
    (h : parse_expression expr = .error msg) :
    register_job st name expr tz = .ok st := by
  unfold register_job
  split
  · rfl
  · unfold mkCronJob
    rw [h]
    rfl

theorem c1_register_parse_error_swallowed_witness :
    register_job ⟨[], false⟩ "job" "* * * *" "UTC" = .ok ⟨[], false⟩ :=
  c1_register_parse_error_swallowed ⟨[], false⟩ "job" "* * * *" "UTC"
    "Invalid cron expression. Must have 5 or 6 fields." (by rfl)

/-- C1 counterexample: for the invalid expression "* * * *" (4 fields)
parsing fails, yet `register_job` returns normally with the state
unchanged (`.ok` — the embedding's `.error` result, which would model an
exception propagating to the caller, is never produced): the parse error
is not reported synchronously to the caller, refuting the claim as
stated.  The "no job is added" half does hold. -/
theorem c1_counterexample :
    parse_expression "* * * *" =
      .error "Invalid cron expression. Must have 5 or 6 fields." ∧
    register_job ⟨[], false⟩ "job" "* * * *" "UTC" = .ok ⟨[], false⟩ :=
  ⟨by rfl, by rfl⟩

/-- C5: calling `register_job` with a name already present in the registry
returns immediately and leaves the entire scheduler state — the jobs
mapping, every stored job, its `last_run`, schedule and running flag —
unchanged. -/
theorem c5_duplicate_register_noop (st : TaskScheduler) (name expr tz : String)
    (h : st.jobs.any (fun p => p.1 == name) = true) :
    register_job st name expr tz = .ok st := by
  unfold register_job
  rw [if_pos h]

theorem c5_duplicate_register_noop_witness :
    register_job demoScheduler "ping" "*/5 * * * *" "EST" = .ok demoScheduler :=
  c5_duplicate_register_noop demoScheduler "ping" "*/5 * * * *" "EST" (by rfl)

/-- C9: the timezone argument is stored on the job but never consulted:
two jobs registered from the same expression under different timezone
labels carry the same parsed schedule, and every IsDue decision, every
TimeUntilNext result, and every loop firing decision computed from those
schedules coincide. -/
theorem c9_timezone_decorative (name e tz1 tz2 : String) (j1 j2 : CronJob)
    (h1 : mkCronJob name e tz1 = .ok j1) (h2 : mkCronJob name e tz2 = .ok j2) :
    j1.timezone = tz1 ∧ j2.timezone = tz2 ∧ j1.crontab = j2.crontab ∧
    (∀ dt, is_time_to_run j1.crontab dt = is_time_to_run j2.crontab dt) ∧
    (∀ t, cron_next j1.crontab t = cron_next j2.crontab t) ∧
    (∀ s now, schedule_tick j1.crontab s now = schedule_tick j2.crontab s now) := by
  unfold mkCronJob at h1 h2
  cases hp : parse_expression e with
  | error msg =>
    rw [hp] at h1
    cases h1
  | ok tab =>
    rw [hp] at h1 h2
    simp only [Except.map, Except.ok.injEq] at h1 h2
    subst h1
    subst h2
    exact ⟨rfl, rfl, rfl, fun _ => rfl, fun _ => rfl, fun _ _ => rfl⟩

theorem c9_timezone_decorative_witness :
    demoJobUTC.timezone = "UTC" ∧ demoJobEST.timezone = "EST" ∧
    demoJobUTC.crontab = demoJobEST.crontab ∧
    (∀ dt, is_time_to_run demoJobUTC.crontab dt = is_time_to_run demoJobEST.crontab dt) ∧
    (∀ t, cron_next demoJobUTC.crontab t = cron_next demoJobEST.crontab t) ∧
    (∀ s now, schedule_tick demoJobUTC.crontab s now = schedule_tick demoJobEST.crontab s now) :=
  c9_timezone_decorative "ping" "0 0 1 1 0" "UTC" "EST" demoJobUTC demoJobEST
    (by rfl) (by rfl)

/-- C10: `is_time_to_run` reads only the instant's second, minute, hour,
day-of-month, month and weekday: two datetimes agreeing on those six
components get the same answer for every schedule, and the microsecond
component of an instant (kept outside `PyDateTime`) is never an input to
the matcher, so sub-second differences cannot change whether an instant is
due. -/
theorem c10_component_dependence (tab : ExtendedCronTab) (d1 d2 : PyDateTime)
    (hsec : d1.second = d2.second) (hmin : d1.minute = d2.minute)
    (hhour : d1.hour = d2.hour) (hday : d1.day = d2.day)
    (hmon : d1.month = d2.month) (hwd : pyWeekday d1 = pyWeekday d2) :
    is_time_to_run tab d1 = is_time_to_run tab d2 ∧
    (∀ n1 n2 : PyInstant, n1.dt = d1 → n2.dt = d2 →
      is_time_to_run tab n1.dt = is_time_to_run tab n2.dt) := by
  have hmain : is_time_to_run tab d1 = is_time_to_run tab d2 := by
    unfold is_time_to_run
    rw [hsec, hmin, hhour, hday, hmon, hwd]
  refine ⟨hmain, fun n1 n2 e1 e2 => ?_⟩
  rw [e1, e2]
  exact hmain

theorem c10_component_dependence_witness :
    is_time_to_run demoTab ⟨2023, 1, 2, 3, 4, 5⟩ =
      is_time_to_run demoTab ⟨2034, 1, 2, 3, 4, 5⟩ :=
  (c10_component_dependence demoTab ⟨2023, 1, 2, 3, 4, 5⟩ ⟨2034, 1, 2, 3, 4, 5⟩
    rfl rfl rfl rfl rfl (by decide)).1

/-- C4: in one iteration of the scheduling loop the callback fires only
when the sampled instant is due and the 1-second re-fire guard passes
(`last_run` unset, or at least one second elapsed); on firing, `last_run`
is set to the sampled instant; and a second poll tick sampled inside the
same due second (equal calendar second, microseconds below one million)
does not fire again. -/
theorem c4_no_double_fire (tab : ExtendedCronTab) (s : JobLoopState)
    (n1 n2 : PyInstant)
    (hm1 : n1.micro < 1000000) (hm2 : n2.micro < 1000000)
    (hsame : n1.dt = n2.dt)
    (hfire : (schedule_tick tab s n1).1 = true) :
    is_time_to_run tab n1.dt = true ∧
    (s.last_run = none ∨
      ∀ lr, s.last_run = some lr → 1000000 ≤ toMicros n1 - toMicros lr) ∧
    (schedule_tick tab s n1).2.last_run = some n1 ∧
    (schedule_tick tab (schedule_tick tab s n1).2 n2).1 = false := by
  cases hdue : is_time_to_run tab n1.dt with
  | false =>
    unfold schedule_tick at hfire
    rw [hdue, if_neg Bool.false_ne_true] at hfire
    cases hfire
  | true =>
    have hdue2 : is_time_to_run tab n2.dt = true := by
      rw [← hsame]
      exact hdue
    have hmicros : toMicros n2 - toMicros n1 = (n2.micro : Int) - n1.micro := by
      unfold toMicros
      rw [hsame]
      ring
    have hguard2 : ¬ (1000000 ≤ toMicros n2 - toMicros n1) := by
      rw [hmicros]
      omega
    cases hlr : s.last_run with
    | none =>
      have ht1 : schedule_tick tab s n1 = (true, ⟨some n1⟩) := by
        unfold schedule_tick
        rw [hdue, if_pos rfl, hlr]
      refine ⟨rfl, Or.inl rfl, ?_, ?_⟩
      · rw [ht1]
      · rw [ht1]
        unfold schedule_tick
        dsimp only
        rw [hdue2, if_pos rfl, if_neg hguard2]
    | some lr =>
      unfold schedule_tick at hfire
      rw [hdue, if_pos rfl, hlr] at hfire
      dsimp only at hfire
      by_cases hg : 1000000 ≤ toMicros n1 - toMicros lr
      · have ht1 : schedule_tick tab s n1 = (true, ⟨some n1⟩) := by
          unfold schedule_tick
          rw [hdue, if_pos rfl, hlr]
          dsimp only
          rw [if_pos hg]
        refine ⟨rfl, Or.inr ?_, ?_, ?_⟩
        · intro lr2 hlr2
          cases hlr2
          exact hg
        · rw [ht1]
        · rw [ht1]
          unfold schedule_tick
          dsimp only
          rw [hdue2, if_pos rfl, if_neg hguard2]
      · rw [if_neg hg] at hfire
        cases hfire

theorem c4_no_double_fire_witness :
    is_time_to_run demoTab demoInstant1.dt = true ∧
    ((⟨none⟩ : JobLoopState).last_run = none ∨
      ∀ lr, (⟨none⟩ : JobLoopState).last_run = some lr →
        1000000 ≤ toMicros demoInstant1 - toMicros lr) ∧
    (schedule_tick demoTab ⟨none⟩ demoInstant1).2.last_run = some demoInstant1 ∧
    (schedule_tick demoTab (schedule_tick demoTab ⟨none⟩ demoInstant1).2 demoInstant2).1 =
      false :=
  c4_no_double_fire demoTab ⟨none⟩ demoInstant1 demoInstant2
    (by decide) (by decide) rfl (by decide)

/-- C8: a 6-field expression all of whose fields parse is accepted with
`has_seconds = true` and the seconds list taken from the first field; a
5-field expression all of whose fields parse is accepted with
`has_seconds = false` and `seconds = [0]`. -/
theorem c8_field_count_behaviour :
    (∀ (e : String) (f0 f1 f2 f3 f4 f5 : List Char) (s0 s1 s2 s3 s4 s5 : List Int),
      pySplitWs e = [f0, f1, f2, f3, f4, f5] →
      parse_field f0 0 59 = .ok s0 → parse_field f1 0 59 = .ok s1 →
      parse_field f2 0 23 = .ok s2 → parse_field f3 1 31 = .ok s3 →
      parse_field f4 1 12 = .ok s4 → parse_field f5 0 6 = .ok s5 →
      parse_expression e = .ok ⟨s0, s1, s2, s3, s4, s5, true⟩) ∧
    (∀ (e : String) (f1 f2 f3 f4 f5 : List Char) (s1 s2 s3 s4 s5 : List Int),
      pySplitWs e = [f1, f2, f3, f4, f5] →
      parse_field f1 0 59 = .ok s1 → parse_field f2 0 23 = .ok s2 →
      parse_field f3 1 31 = .ok s3 → parse_field f4 1 12 = .ok s4 →
      parse_field f5 0 6 = .ok s5 →
      parse_expression e = .ok ⟨[0], s1, s2, s3, s4, s5, false⟩) := by
  constructor
  · intro e f0 f1 f2 f3 f4 f5 s0 s1 s2 s3 s4 s5 hsplit h0 h1 h2 h3 h4 h5
    unfold parse_expression
    rw [hsplit]
    dsimp only
    rw [show ([f0, f1, f2, f3, f4, f5] : List (List Char)).length = 6 from rfl]
    rw [if_neg (by norm_num : ¬ ¬ ((5:Nat) ≤ 6 ∧ (6:Nat) ≤ 6))]
    rw [show ((6:Nat) == 6) = true from rfl]
    rw [if_pos rfl, if_pos rfl]
    simp only [List.headD_cons, List.tail_cons, List.getD_cons_zero, List.getD_cons_succ]
    rw [h0, except_bind_ok, h1, except_bind_ok, h2, except_bind_ok, h3, except_bind_ok,
      h4, except_bind_ok, h5, except_bind_ok, except_pure]
  · intro e f1 f2 f3 f4 f5 s1 s2 s3 s4 s5 hsplit h1 h2 h3 h4 h5
    unfold parse_expression
    rw [hsplit]
    dsimp only
    rw [show ([f1, f2, f3, f4, f5] : List (List Char)).length = 5 from rfl]
    rw [if_neg (by norm_num : ¬ ¬ ((5:Nat) ≤ 5 ∧ (5:Nat) ≤ 6))]
    rw [show ((5:Nat) == 6) = false from rfl]
    rw [if_neg Bool.false_ne_true, if_neg Bool.false_ne_true]
    rw [except_pure, except_bind_ok]
    simp only [List.getD_cons_zero, List.getD_cons_succ]
    rw [h1, except_bind_ok, h2, except_bind_ok, h3, except_bind_ok, h4, except_bind_ok,
      h5, except_bind_ok, except_pure]

theorem c8_field_count_behaviour_witness :
    parse_expression "6 1 2 3 4 5" = .ok ⟨[6], [1], [2], [3], [4], [5], true⟩ ∧
    parse_expression "1 2 3 4 5" = .ok ⟨[0], [1], [2], [3], [4], [5], false⟩ :=
  ⟨c8_field_count_behaviour.1 "6 1 2 3 4 5" ['6'] ['1'] ['2'] ['3'] ['4'] ['5']
      [6] [1] [2] [3] [4] [5] (by rfl) (by rfl) (by rfl) (by rfl) (by rfl) (by rfl) (by rfl),
   c8_field_count_behaviour.2 "1 2 3 4 5" ['1'] ['2'] ['3'] ['4'] ['5']
      [1] [2] [3] [4] [5] (by rfl) (by rfl) (by rfl) (by rfl) (by rfl) (by rfl)⟩

theorem c3_next_positive_and_due_or_fallback_witness :
    0 < cron_next tab314 ⟨2024, 6, 1, 0, 0, 0⟩ ∧
    (is_time_to_run tab314
        (addSeconds (cron_next tab314 ⟨2024, 6, 1, 0, 0, 0⟩) ⟨2024, 6, 1, 0, 0, 0⟩) = true ∨
      cron_next tab314 ⟨2024, 6, 1, 0, 0, 0⟩ = 24 * 60 * 60) :=
  c3_next_positive_and_due_or_fallback tab314 ⟨2024, 6, 1, 0, 0, 0⟩
